import Mathlib

/-!
Verification of `tesla_temperature_reporter` (src/tesla_temperature_reporter/src/main.rs),
an external fan-speed controller for an Nvidia Tesla GPU.

Modelling conventions:
* `f64` values are modelled as rationals (`ℚ`).  All arithmetic the program performs on
  the reachable inputs (differences, products, divisions by provably nonzero
  denominators, comparisons with decimal literals) is exact, so the rational model
  agrees with the source except for float rounding, which no claim depends on.
* `u8` and `u32` are modelled as `ℕ`; the `as u8` narrowing of a `u32` is `% 256` and
  the `f64 as u8` saturating cast is `rustF64AsU8` below.
* The fallible external collaborators (NVML telemetry reads, HID open/write) are
  modelled by `Option`-valued inputs and boolean outcome flags fed to each tick.
-/

namespace FanController

/-- Rust's saturating `f64 as u8` cast on finite values: negative values go to 0,
values above 255 go to 255, and everything else is truncated toward zero. -/
def rustF64AsU8 (x : ℚ) : ℕ :=
  if x < 0 then 0 else min (Int.toNat ⌊x⌋) 255

/-- Rust's `f64::clamp(0.0, 1.0)` (main.rs line 23). -/
def rustClamp01 (x : ℚ) : ℚ := max 0 (min x 1)

/-- `struct FanSpeedTable { table: Vec<(f64, u8)> }` (main.rs lines 9-12). -/
structure FanSpeedTable where
  table : List (ℚ × ℕ)
deriving DecidableEq

/-- `FanSpeedTable::new` (main.rs lines 15-20): `table.sort_by(|(a,_),(b,_)| a.total_cmp(b))`.
Rust's `sort_by` is a stable sort, and a stable sort's output is uniquely determined by
the comparison key, so it is modelled by insertion sort on the first component. -/
def FanSpeedTable.new (table : List (ℚ × ℕ)) : FanSpeedTable :=
  { table := List.insertionSort (fun a b => a.1 ≤ b.1) table }

/-- The `upper` breakpoint of `FanSpeedTable::lookup_speed` (main.rs lines 25-28):
the first table entry whose load is strictly above the query, defaulting to `(1.0, 255)`. -/
def upperOf (t : List (ℚ × ℕ)) (power_usage : ℚ) : ℚ × ℕ :=
  (t.find? (fun p => decide (power_usage < p.1))).getD (1, 255)

/-- The `lower` breakpoint of `FanSpeedTable::lookup_speed` (main.rs lines 29-33):
the last table entry whose load is strictly below the query, defaulting to `(0.0, 0)`. -/
def lowerOf (t : List (ℚ × ℕ)) (power_usage : ℚ) : ℚ × ℕ :=
  (t.reverse.find? (fun p => decide (p.1 < power_usage))).getD (0, 0)

/-- The interpolated value of `FanSpeedTable::lookup_speed` before the `as u8` cast
(main.rs lines 35-36). -/
def interpValue (t : List (ℚ × ℕ)) (power_usage : ℚ) : ℚ :=
  let upper := upperOf t power_usage
  let lower := lowerOf t power_usage
  let usage_pct := (power_usage - lower.1) / (upper.1 - lower.1)
  (upper.2 : ℚ) * usage_pct + (lower.2 : ℚ) * (1 - usage_pct)

/-- `FanSpeedTable::lookup_speed` (main.rs lines 22-37). -/
def FanSpeedTable.lookup_speed (tbl : FanSpeedTable) (power_usage : ℚ) : ℕ :=
  rustF64AsU8 (interpValue tbl.table (rustClamp01 power_usage))

/-- `DEFAULT_FAN_SPEED` (main.rs lines 91-98). -/
def DEFAULT_FAN_SPEED : List (ℚ × ℕ) :=
  [(3/10, 0), (4/10, 70), (6/10, 120), (7/10, 170), (8/10, 210), (95/100, 255)]

/-- `default_fan_speed_table` (main.rs lines 100-102). -/
def default_fan_speed_table : FanSpeedTable :=
  FanSpeedTable.new DEFAULT_FAN_SPEED

/-- `struct CircleBuf` (main.rs lines 125-128): a fixed backing buffer plus a cursor. -/
structure CircleBuf (α : Type) where
  n : ℕ
  buf : List α
deriving DecidableEq

/-- `CircleBuf::new` (main.rs lines 131-136). -/
def CircleBuf.new {α : Type} (buf : List α) : CircleBuf α :=
  { n := 0, buf := buf }

/-- `CircleBuf::push` (main.rs lines 138-145): `n = n % len; buf[n] = e; n += 1`. -/
def CircleBuf.push {α : Type} (c : CircleBuf α) (e : α) : CircleBuf α :=
  let i := c.n % c.buf.length
  { n := i + 1, buf := c.buf.set i e }

/-- `temp_history.iter().max().unwrap()` (main.rs line 287); on the nonempty `ℕ`-valued
buffers the program uses, folding `max` with base 0 is that maximum. -/
def listMax (l : List ℕ) : ℕ := l.foldr max 0

/-- `power_history.iter().sum::<f64>() / power_history.len() as f64` (main.rs line 294). -/
def averageOf (l : List ℚ) : ℚ := l.sum / (l.length : ℚ)

/-- The mutable state of the monitoring loop of `inner_main` (main.rs lines 237-242):
the two histories, `prev_speed`, and whether `fan_controller` holds a live connection. -/
structure LoopState where
  tempHistory : CircleBuf ℕ
  powerHistory : CircleBuf ℚ
  prevSpeed : Option ℕ
  connected : Bool
deriving DecidableEq

/-- The per-tick interactions with the external collaborators: whether a disconnected
actuator can be re-opened (main.rs lines 248-260), the three telemetry reads
(main.rs lines 263-283, `none` = the read failed), and whether the actuator write
succeeds (main.rs lines 337-346). -/
structure TickInput where
  acquireOk : Bool
  temp : Option ℕ
  powerUsage : Option ℕ
  powerLimit : Option ℕ
  writeOk : Bool

/-- `(60.0 / args.update_interval).ceil() as usize` (main.rs line 236). -/
def samplesFor (update_interval : ℚ) : ℕ := (⌈60 / update_interval⌉).toNat

/-- The state right before the loop starts (main.rs lines 231-242): both histories are
seeded with the initial telemetry sample replicated into every slot
(`vec![temp as u8; samples]`, `vec![power_usage / power_limit; samples]`),
`prev_speed = None`, `fan_controller = None`. -/
def initState (update_interval : ℚ) (temp0 pu0 pl0 : ℕ) : LoopState :=
  { tempHistory := CircleBuf.new (List.replicate (samplesFor update_interval) (temp0 % 256))
    powerHistory := CircleBuf.new
      (List.replicate (samplesFor update_interval) ((pu0 : ℚ) / (pl0 : ℚ)))
    prevSpeed := none
    connected := false }

/-- The `let speed = loop { ... }` block (main.rs lines 262-315): on any failed read,
histories are untouched and the speed is 255; otherwise push both samples, apply the
safety cutoff at max temperature 77, look the average power up in the curve, and apply
the saturating +50 thermal-margin boost at max temperature 72. -/
def computeSpeed (curve : FanSpeedTable) (th : CircleBuf ℕ) (ph : CircleBuf ℚ)
    (temp powerUsage powerLimit : Option ℕ) : ℕ × CircleBuf ℕ × CircleBuf ℚ :=
  match temp, powerUsage, powerLimit with
  | some t, some pu, some pl =>
    let th' := th.push (t % 256)
    let ph' := ph.push ((pu : ℚ) / (pl : ℚ))
    let max_temp := listMax th'.buf
    if 77 ≤ max_temp then (255, th', ph')
    else
      let average_power := averageOf ph'.buf
      let speed := curve.lookup_speed average_power
      let adj_speed := if 72 ≤ max_temp then min (speed + 50) 255 else speed
      (adj_speed, th', ph')
  | _, _, _ => (255, th, ph)

/-- The hysteresis filter (main.rs lines 317-326): with a previous commanded speed,
suppress the command when the change is within 12.75 and it is neither a transition
into 0 from a nonzero previous speed nor into 255 from a non-255 previous speed. -/
def shouldSuppress (prev : Option ℕ) (speed : ℕ) : Bool :=
  match prev with
  | none => false
  | some prev_speed =>
    decide (|(speed : ℚ) - (prev_speed : ℚ)| ≤ 12.75)
      && !(decide (prev_speed ≠ 0) && decide (speed = 0))
      && !(decide (prev_speed ≠ 255) && decide (speed = 255))

/-- One iteration of the monitoring loop (main.rs lines 243-347).  The returned
`Option ℕ` is the duty-cycle byte handed to `fan_controller_ref.write` (`none` when the
tick was skipped or the command suppressed); on a successful write `prev_speed` becomes
the written speed, on a failed write the connection is dropped and `prev_speed` kept. -/
def tick (curve : FanSpeedTable) (st : LoopState) (inp : TickInput) : LoopState × Option ℕ :=
  if !st.connected && !inp.acquireOk then (st, none)
  else
    let r := computeSpeed curve st.tempHistory st.powerHistory
      inp.temp inp.powerUsage inp.powerLimit
    let st1 : LoopState :=
      { tempHistory := r.2.1, powerHistory := r.2.2
        prevSpeed := st.prevSpeed, connected := true }
    if shouldSuppress st.prevSpeed r.1 then (st1, none)
    else if inp.writeOk then ({ st1 with prevSpeed := some r.1 }, some r.1)
    else ({ st1 with connected := false }, some r.1)

/-- Runs the monitoring loop over a finite list of tick inputs, collecting the speed
written (if any) on each tick in order. -/
def runTicks (curve : FanSpeedTable) (st : LoopState) :
    List TickInput → LoopState × List (Option ℕ)
  | [] => (st, [])
  | i :: is =>
    let r := tick curve st i
    let rest := runTicks curve r.1 is
    (rest.1, r.2 :: rest.2)

/-! ## Helper lemmas -/

theorem computeSpeed_fail (curve : FanSpeedTable) (th : CircleBuf ℕ) (ph : CircleBuf ℚ)
    {temp pu pl : Option ℕ} (h : temp = none ∨ pu = none ∨ pl = none) :
    computeSpeed curve th ph temp pu pl = (255, th, ph) := by
  rcases temp with _ | t <;> rcases pu with _ | pu <;> rcases pl with _ | pl <;>
    first | rfl | simp at h

theorem shouldSuppress_at_255 (prev : Option ℕ) :
    shouldSuppress prev 255 = decide (prev = some 255) := by
  rcases prev with _ | p
  · rfl
  by_cases hp : p = 255
  · subst hp
    with_unfolding_all decide
  · simp [shouldSuppress, hp]

theorem rustClamp01_nonneg (x : ℚ) : 0 ≤ rustClamp01 x := le_max_left 0 _

theorem rustClamp01_le_one (x : ℚ) : rustClamp01 x ≤ 1 :=
  max_le (by norm_num) (min_le_right x 1)

theorem rustClamp01_of_mem {x : ℚ} (h0 : 0 ≤ x) (h1 : x ≤ 1) : rustClamp01 x = x := by
  unfold rustClamp01
  rw [min_eq_left h1, max_eq_right h0]

theorem rustClamp01_idem (x : ℚ) : rustClamp01 (rustClamp01 x) = rustClamp01 x :=
  rustClamp01_of_mem (rustClamp01_nonneg x) (rustClamp01_le_one x)

theorem set_append_cons {α : Type} (pre : List α) (r : α) (rs : List α) (v : α) :
    (pre ++ r :: rs).set pre.length v = pre ++ v :: rs := by
  induction pre with
  | nil => rfl
  | cons a l ih => simp [List.set_cons_succ, ih]

theorem circle_push_fold {α : Type} (vs : List α) (pre rest : List α)
    (h : vs.length ≤ rest.length) :
    (vs.foldl CircleBuf.push ⟨pre.length, pre ++ rest⟩).buf
      = (pre ++ vs) ++ rest.drop vs.length := by
  induction vs generalizing pre rest with
  | nil => simp
  | cons v vs ih =>
    rcases rest with _ | ⟨r, rs⟩
    · simp at h
    · have hlt : pre.length < (pre ++ r :: rs).length := by simp
      have hpush : CircleBuf.push ⟨pre.length, pre ++ r :: rs⟩ v
          = ⟨pre.length + 1, pre ++ v :: rs⟩ := by
        show (⟨pre.length % (pre ++ r :: rs).length + 1,
          (pre ++ r :: rs).set (pre.length % (pre ++ r :: rs).length) v⟩ : CircleBuf α) = _
        rw [Nat.mod_eq_of_lt hlt, set_append_cons]
      rw [List.foldl_cons, hpush]
      have hstep := ih (pre ++ [v]) rs (by simpa using h)
      simp only [List.length_append, List.length_cons, List.length_nil,
        List.append_assoc, List.singleton_append] at hstep
      simpa using hstep

/-! ## Claims -/

/-- Claim C1: on any tick where all three telemetry reads succeed, if the maximum over
the (freshly pushed) temperature history window is at least 77, the candidate speed is
255, for every calibration curve and every power history: the safety cutoff takes
precedence over the curve lookup and the thermal-margin boost. -/
theorem safety_cutoff_forces_255 (curve : FanSpeedTable) (th : CircleBuf ℕ)
    (ph : CircleBuf ℚ) (t pu pl : ℕ)
    (h : 77 ≤ listMax (th.push (t % 256)).buf) :
    (computeSpeed curve th ph (some t) (some pu) (some pl)).1 = 255 := by
  simp only [computeSpeed]
  rw [if_pos h]

theorem safety_cutoff_forces_255_witness :
    77 ≤ listMax ((CircleBuf.new [50]).push (80 % 256)).buf
    ∧ (computeSpeed default_fan_speed_table (CircleBuf.new [50]) (CircleBuf.new [1/2])
        (some 80) (some 125) (some 250)).1 = 255 :=
  ⟨by with_unfolding_all decide,
   safety_cutoff_forces_255 default_fan_speed_table (CircleBuf.new [50])
     (CircleBuf.new [1/2]) 80 125 250 (by with_unfolding_all decide)⟩

/-- Claim C2: the hysteresis filter: with no previous commanded speed the candidate is
always commanded; with previous speed p, candidate c is suppressed exactly when
|c − p| ≤ 12.75 and it is not a transition into 0 from nonzero p and not a transition
into 255 from non-255 p.  In particular with p = 100 every candidate in [88,112] is
suppressed while candidates 0 and 255 are commanded, and with p = 0 candidate 0 is
suppressed. -/
theorem hysteresis_characterisation :
    (∀ c : ℕ, shouldSuppress none c = false)
    ∧ (∀ p c : ℕ, shouldSuppress (some p) c = true ↔
        (|(c : ℚ) - (p : ℚ)| ≤ 12.75 ∧ ¬(p ≠ 0 ∧ c = 0) ∧ ¬(p ≠ 255 ∧ c = 255)))
    ∧ (∀ c : ℕ, 88 ≤ c → c ≤ 112 → shouldSuppress (some 100) c = true)
    ∧ shouldSuppress (some 100) 0 = false
    ∧ shouldSuppress (some 100) 255 = false
    ∧ shouldSuppress (some 0) 0 = true := by
  have hiff : ∀ p c : ℕ, shouldSuppress (some p) c = true ↔
      (|(c : ℚ) - (p : ℚ)| ≤ 12.75 ∧ ¬(p ≠ 0 ∧ c = 0) ∧ ¬(p ≠ 255 ∧ c = 255)) := by
    intro p c
    simp only [shouldSuppress, Bool.and_eq_true, Bool.not_eq_true', Bool.and_eq_false_iff,
      decide_eq_true_eq, decide_eq_false_iff_not, not_not, and_assoc, not_and]
    tauto
  refine ⟨fun c => rfl, hiff, ?_, ?_, ?_, ?_⟩
  · intro c h1 h2
    rw [hiff]
    refine ⟨?_, ?_, ?_⟩
    · rw [abs_le]
      have hc1 : (88 : ℚ) ≤ (c : ℚ) := by exact_mod_cast h1
      have hc2 : (c : ℚ) ≤ 112 := by exact_mod_cast h2
      constructor <;> [linarith [hc1]; linarith [hc2]]
    · rintro ⟨-, hc0⟩
      omega
    · rintro ⟨-, hc255⟩
      omega
  · with_unfolding_all decide
  · with_unfolding_all decide
  · with_unfolding_all decide

theorem hysteresis_characterisation_witness :
    88 ≤ 90 ∧ 90 ≤ 112 ∧ shouldSuppress (some 100) 90 = true :=
  ⟨by decide, by decide, hysteresis_characterisation.2.2.1 90 (by decide) (by decide)⟩

/-- Claim C4 counterexample: on a telemetry-failure tick with previous commanded speed
exactly 255, the candidate 255 is suppressed by the hysteresis filter and nothing is
written to the actuator, contradicting "that 255 is always commanded ... for every
value of the previous commanded speed". -/
theorem telemetry_failure_suppressed_at_prev_255 :
    (tick default_fan_speed_table
      { tempHistory := CircleBuf.new [50], powerHistory := CircleBuf.new [1/2]
        prevSpeed := some 255, connected := true }
      { acquireOk := true, temp := none, powerUsage := none, powerLimit := none
        writeOk := true }).2 = none := by
  with_unfolding_all decide

/-- Claim C4 (amended): on every tick that proceeds past actuator acquisition and where
some telemetry read fails, nothing is pushed into either history window and the
candidate speed is forced to 255; the 255 is commanded to the actuator for every
previous commanded speed except exactly 255, in which case the hysteresis filter
suppresses the repeat command. -/
theorem telemetry_failure_failsafe (curve : FanSpeedTable) (st : LoopState)
    (inp : TickInput) (hconn : st.connected = true ∨ inp.acquireOk = true)
    (hfail : inp.temp = none ∨ inp.powerUsage = none ∨ inp.powerLimit = none) :
    (tick curve st inp).1.tempHistory = st.tempHistory
    ∧ (tick curve st inp).1.powerHistory = st.powerHistory
    ∧ (computeSpeed curve st.tempHistory st.powerHistory
        inp.temp inp.powerUsage inp.powerLimit).1 = 255
    ∧ (st.prevSpeed ≠ some 255 → (tick curve st inp).2 = some 255)
    ∧ (st.prevSpeed = some 255 → (tick curve st inp).2 = none) := by
  have hcond : (!st.connected && !inp.acquireOk) = false := by
    rcases hconn with h | h <;> simp [h]
  have hcs := computeSpeed_fail curve st.tempHistory st.powerHistory hfail
  by_cases hp : st.prevSpeed = some 255 <;>
    rcases hw : inp.writeOk <;>
      simp [tick, hcond, hcs, shouldSuppress_at_255, hp, hw]

theorem telemetry_failure_failsafe_witness :
    (({ tempHistory := CircleBuf.new [50], powerHistory := CircleBuf.new [1/2]
        prevSpeed := none, connected := true } : LoopState).connected = true
      ∨ ({ acquireOk := true, temp := none, powerUsage := some 125, powerLimit := some 250
           writeOk := true } : TickInput).acquireOk = true)
    ∧ (tick default_fan_speed_table
        { tempHistory := CircleBuf.new [50], powerHistory := CircleBuf.new [1/2]
          prevSpeed := none, connected := true }
        { acquireOk := true, temp := none, powerUsage := some 125, powerLimit := some 250
          writeOk := true }).2 = some 255 :=
  ⟨Or.inl rfl,
   (telemetry_failure_failsafe default_fan_speed_table
      { tempHistory := CircleBuf.new [50], powerHistory := CircleBuf.new [1/2]
        prevSpeed := none, connected := true }
      { acquireOk := true, temp := none, powerUsage := some 125, powerLimit := some 250
        writeOk := true }
      (Or.inl rfl) (Or.inl rfl)).2.2.2.1 (by simp)⟩

/-- Claim C6: for every table (any breakpoints whatsoever) and every input load,
including loads outside [0,1], the lookup result is a byte in [0,255], and the input
is clamped to [0,1] before interpolation: the result equals the result on the clamped
load. -/
theorem lookup_speed_byte_range (tbl : FanSpeedTable) (L : ℚ) :
    tbl.lookup_speed L ≤ 255
    ∧ tbl.lookup_speed L = tbl.lookup_speed (rustClamp01 L) := by
  constructor
  · unfold FanSpeedTable.lookup_speed rustF64AsU8
    split
    · exact Nat.zero_le 255
    · exact min_le_right _ 255
  · unfold FanSpeedTable.lookup_speed
    rw [rustClamp01_idem]

/-- Claim C9: `prev_speed` is updated exactly by successful actuator writes, and then
to exactly the written speed; when a write fails the connection handle is dropped
(forcing re-acquisition next tick) and `prev_speed` is left unchanged; when no write
happens `prev_speed` is also unchanged. -/
theorem write_outcome_state_update (curve : FanSpeedTable) (st : LoopState)
    (inp : TickInput) :
    ((tick curve st inp).2 = none → (tick curve st inp).1.prevSpeed = st.prevSpeed)
    ∧ (∀ s : ℕ, inp.writeOk = true → (tick curve st inp).2 = some s →
        (tick curve st inp).1.prevSpeed = some s)
    ∧ (∀ s : ℕ, inp.writeOk = false → (tick curve st inp).2 = some s →
        (tick curve st inp).1.prevSpeed = st.prevSpeed
        ∧ (tick curve st inp).1.connected = false) := by
  by_cases hskip : (!st.connected && !inp.acquireOk) = true
  · simp [tick, hskip]
  · by_cases hsup : shouldSuppress st.prevSpeed
        (computeSpeed curve st.tempHistory st.powerHistory
          inp.temp inp.powerUsage inp.powerLimit).1 = true
    · simp [tick, hskip, hsup]
    · rcases hw : inp.writeOk <;> simp [tick, hskip, hsup, hw]

theorem write_outcome_state_update_witness :
    (({ acquireOk := true, temp := none, powerUsage := none, powerLimit := none
        writeOk := false } : TickInput).writeOk = false)
    ∧ (tick default_fan_speed_table
        { tempHistory := CircleBuf.new [50], powerHistory := CircleBuf.new [1/2]
          prevSpeed := none, connected := true }
        { acquireOk := true, temp := none, powerUsage := none, powerLimit := none
          writeOk := false }).2 = some 255
    ∧ (tick default_fan_speed_table
        { tempHistory := CircleBuf.new [50], powerHistory := CircleBuf.new [1/2]
          prevSpeed := none, connected := true }
        { acquireOk := true, temp := none, powerUsage := none, powerLimit := none
          writeOk := false }).1.prevSpeed = none
    ∧ (tick default_fan_speed_table
        { tempHistory := CircleBuf.new [50], powerHistory := CircleBuf.new [1/2]
          prevSpeed := none, connected := true }
        { acquireOk := true, temp := none, powerUsage := none, powerLimit := none
          writeOk := false }).1.connected = false :=
  ⟨rfl, by with_unfolding_all decide,
   ((write_outcome_state_update default_fan_speed_table
      { tempHistory := CircleBuf.new [50], powerHistory := CircleBuf.new [1/2]
        prevSpeed := none, connected := true }
      { acquireOk := true, temp := none, powerUsage := none, powerLimit := none
        writeOk := false }).2.2 255 rfl (by with_unfolding_all decide)).1,
   ((write_outcome_state_update default_fan_speed_table
      { tempHistory := CircleBuf.new [50], powerHistory := CircleBuf.new [1/2]
        prevSpeed := none, connected := true }
      { acquireOk := true, temp := none, powerUsage := none, powerLimit := none
        writeOk := false }).2.2 255 rfl (by with_unfolding_all decide)).2⟩

/-- Claim C10: at startup both history windows are seeded with the first telemetry
sample replicated into every slot, and pushing k ≤ N further samples into such a window
yields exactly those k samples followed by N − k copies of the initial one: the
aggregates only ever range over the initial reading plus the samples pushed so far. -/
theorem startup_history_seeding :
    (∀ (update_interval : ℚ) (t0 pu0 pl0 : ℕ),
      (initState update_interval t0 pu0 pl0).tempHistory
        = CircleBuf.new (List.replicate (samplesFor update_interval) (t0 % 256))
      ∧ (initState update_interval t0 pu0 pl0).powerHistory
        = CircleBuf.new (List.replicate (samplesFor update_interval) ((pu0 : ℚ) / (pl0 : ℚ))))
    ∧ (∀ (α : Type) (a : α) (n : ℕ) (vs : List α), vs.length ≤ n →
        (vs.foldl CircleBuf.push (CircleBuf.new (List.replicate n a))).buf
          = vs ++ List.replicate (n - vs.length) a) := by
  refine ⟨fun _ _ _ _ => ⟨rfl, rfl⟩, fun α a n vs h => ?_⟩
  have hfold := circle_push_fold vs [] (List.replicate n a) (by simpa using h)
  simpa [List.drop_replicate] using hfold

theorem startup_history_seeding_witness :
    ([3, 4].length ≤ 3)
    ∧ ([3, 4].foldl CircleBuf.push (CircleBuf.new (List.replicate 3 9))).buf
        = [3, 4] ++ List.replicate (3 - [3, 4].length) 9 :=
  ⟨by decide, startup_history_seeding.2 ℕ 9 3 [3, 4] (by decide)⟩

theorem lowerOf_lt_upperOf (t : List (ℚ × ℕ)) {L : ℚ} (h0 : 0 ≤ L) (h1 : L ≤ 1) :
    (lowerOf t L).1 < (upperOf t L).1 := by
  unfold lowerOf upperOf
  rcases hu : t.find? (fun p => decide (L < p.1)) with _ | u <;>
    rcases hl : t.reverse.find? (fun p => decide (p.1 < L)) with _ | v <;>
      rw [hu, hl]
  · norm_num
  · have hv := List.find?_some hl
    simp only [decide_eq_true_eq] at hv
    simpa using lt_of_lt_of_le hv h1
  · have hu' := List.find?_some hu
    simp only [decide_eq_true_eq] at hu'
    simpa using lt_of_le_of_lt h0 hu'
  · have hv := List.find?_some hl
    have hu' := List.find?_some hu
    simp only [decide_eq_true_eq] at hv hu'
    simpa using lt_trans hv hu'

theorem pairwise_lt_of_pairwise_le_nodup {l : List (ℚ × ℕ)}
    (hle : l.Pairwise (fun a b => a.1 ≤ b.1)) (hnd : (l.map Prod.fst).Nodup) :
    l.Pairwise (fun a b => a.1 < b.1) := by
  have hne : l.Pairwise (fun a b => a.1 ≠ b.1) := List.pairwise_map.mp hnd
  exact (hle.and hne).imp fun h => lt_of_le_of_ne h.1 h.2

theorem new_table_sorted (l : List (ℚ × ℕ)) :
    (FanSpeedTable.new l).table.Pairwise (fun a b => a.1 ≤ b.1) := by
  haveI : IsTotal (ℚ × ℕ) (fun a b => a.1 ≤ b.1) := ⟨fun a b => le_total a.1 b.1⟩
  haveI : IsTrans (ℚ × ℕ) (fun a b => a.1 ≤ b.1) := ⟨fun _ _ _ h1 h2 => le_trans h1 h2⟩
  exact List.sorted_insertionSort _ l

theorem new_table_perm (l : List (ℚ × ℕ)) : (FanSpeedTable.new l).table.Perm l :=
  List.perm_insertionSort _ l

/-- Claim C5 counterexample: building a table from two breakpoints with the same load
value succeeds and keeps both entries (the textual validation in `from_str` only checks
the load range and number syntax, and `new` never fails), so curves with
non-pairwise-distinct loads are successfully built. -/
theorem duplicate_loads_accepted :
    (FanSpeedTable.new [((1:ℚ)/2, 10), (1/2, 20)]).table = [(1/2, 10), (1/2, 20)] := by
  with_unfolding_all decide

/-- Claim C5 (amended): duplicate breakpoint loads are not rejected at build time, but
the interpolation denominator `upper.load − lower.load` is strictly positive for every
table — duplicated loads included — and every input, because the upper search is strict
above the clamped load (default 1) and the lower search strict below it (default 0):
the division is never by zero. -/
theorem interpolation_denominator_positive (t : List (ℚ × ℕ)) (L : ℚ) :
    (lowerOf t (rustClamp01 L)).1 < (upperOf t (rustClamp01 L)).1 :=
  lowerOf_lt_upperOf t (rustClamp01_nonneg L) (rustClamp01_le_one L)

/-- Claim C7 counterexample: two permutations of a breakpoint list with a repeated load
build different tables — the stable sort keeps equal loads in input order — and the
two curves disagree at load 1/4. -/
theorem permutation_with_duplicate_loads_matters :
    ([((1:ℚ)/2, 10), (1/2, 20)] : List (ℚ × ℕ)).Perm [(1/2, 20), (1/2, 10)]
    ∧ (FanSpeedTable.new [((1:ℚ)/2, 10), (1/2, 20)]).lookup_speed (1/4) = 5
    ∧ (FanSpeedTable.new [((1:ℚ)/2, 20), (1/2, 10)]).lookup_speed (1/4) = 10 :=
  ⟨List.Perm.swap _ _ _, by with_unfolding_all decide, by with_unfolding_all decide⟩

/-- Claim C7 (amended): after construction the breakpoint sequence is sorted ascending
by load for every input list; and restricted to lists whose loads are pairwise
distinct, construction is order-insensitive: every permutation builds the identical
table, hence identical lookup results for every input load. -/
theorem construction_order_insensitive :
    (∀ l : List (ℚ × ℕ), (FanSpeedTable.new l).table.Pairwise (fun a b => a.1 ≤ b.1))
    ∧ (∀ l1 l2 : List (ℚ × ℕ), l1.Perm l2 → (l1.map Prod.fst).Nodup →
        FanSpeedTable.new l1 = FanSpeedTable.new l2
        ∧ ∀ L : ℚ, (FanSpeedTable.new l1).lookup_speed L
            = (FanSpeedTable.new l2).lookup_speed L) := by
  refine ⟨new_table_sorted, fun l1 l2 hperm hnodup => ?_⟩
  have hnd1 : ((FanSpeedTable.new l1).table.map Prod.fst).Nodup :=
    ((List.Perm.map Prod.fst (new_table_perm l1)).nodup_iff).mpr hnodup
  have hnd2 : ((FanSpeedTable.new l2).table.map Prod.fst).Nodup :=
    ((List.Perm.map Prod.fst ((new_table_perm l2).trans hperm.symm)).nodup_iff).mpr hnodup
  have hperm' : (FanSpeedTable.new l1).table.Perm (FanSpeedTable.new l2).table :=
    ((new_table_perm l1).trans hperm).trans (new_table_perm l2).symm
  haveI : IsAntisymm (ℚ × ℕ) (fun a b => a.1 < b.1) :=
    ⟨fun _ _ h1 h2 => absurd h2 (lt_asymm h1)⟩
  have htab : (FanSpeedTable.new l1).table = (FanSpeedTable.new l2).table :=
    List.eq_of_perm_of_sorted hperm'
      (pairwise_lt_of_pairwise_le_nodup (new_table_sorted l1) hnd1)
      (pairwise_lt_of_pairwise_le_nodup (new_table_sorted l2) hnd2)
  have heq : FanSpeedTable.new l1 = FanSpeedTable.new l2 := by
    calc FanSpeedTable.new l1 = ⟨(FanSpeedTable.new l1).table⟩ := rfl
      _ = ⟨(FanSpeedTable.new l2).table⟩ := by rw [htab]
      _ = FanSpeedTable.new l2 := rfl
  exact ⟨heq, fun L => by rw [heq]⟩

theorem construction_order_insensitive_witness :
    ([((3:ℚ)/10, 0), (1, 255)] : List (ℚ × ℕ)).Perm [(1, 255), (3/10, 0)]
    ∧ (([((3:ℚ)/10, 0), (1, 255)] : List (ℚ × ℕ)).map Prod.fst).Nodup
    ∧ FanSpeedTable.new [((3:ℚ)/10, 0), (1, 255)]
        = FanSpeedTable.new [(1, 255), (3/10, 0)] :=
  ⟨List.Perm.swap _ _ _, by with_unfolding_all decide,
   (construction_order_insensitive.2 [((3:ℚ)/10, 0), (1, 255)] [(1, 255), (3/10, 0)]
      (List.Perm.swap _ _ _) (by with_unfolding_all decide)).1⟩

set_option maxRecDepth 8000

/-- Claim C8: with the default curve, update interval 5 s (window capacity
`samplesFor 5 = 12`), a live actuator, and constant telemetry — temperature 50 and
power 125/250 = 0.5 — from startup through 12 consecutive ticks, the looked-up speed is
95 (interpolating between breakpoints (0.4, 70) and (0.6, 120) at fraction 0.5), it is
written exactly once on the first tick, and no further command is sent. -/
theorem end_to_end_constant_load :
    samplesFor 5 = 12
    ∧ default_fan_speed_table.lookup_speed (1/2) = 95
    ∧ (runTicks default_fan_speed_table (initState 5 50 125 250)
        (List.replicate 12
          { acquireOk := true, temp := some 50, powerUsage := some 125
            powerLimit := some 250, writeOk := true })).2
      = some 95 :: List.replicate 11 none := by
  refine ⟨by with_unfolding_all decide, by with_unfolding_all decide, ?_⟩
  with_unfolding_all decide

theorem find?_decomp {α : Type} {p : α → Bool} {l : List α} {a : α}
    (h : l.find? p = some a) :
    ∃ l1 l2, l = l1 ++ a :: l2 ∧ (∀ x ∈ l1, p x = false) ∧ p a = true := by
  induction l with
  | nil => simp at h
  | cons b t ih =>
    cases hb : p b
    · rw [List.find?_cons_of_neg t (by simp [hb])] at h
      obtain ⟨l1, l2, hl, hfail, hpa⟩ := ih h
      refine ⟨b :: l1, l2, by simp [hl], fun x hx => ?_, hpa⟩
      rcases List.mem_cons.mp hx with rfl | hx
      · exact hb
      · exact hfail x hx
    · rw [List.find?_cons_of_pos t hb] at h
      obtain rfl : b = a := by simpa using h
      exact ⟨[], t, rfl, by simp, hb⟩

theorem find?_congr {α : Type} {p q : α → Bool} {l : List α}
    (h : ∀ x ∈ l, p x = q x) : l.find? p = l.find? q := by
  induction l with
  | nil => rfl
  | cons a t ih =>
    rw [List.find?_cons, List.find?_cons, h a (List.mem_cons_self a t),
      ih fun x hx => h x (List.mem_cons_of_mem a hx)]

theorem two_decomps {α : Type} (l1 : List α) (u : α) (l2 m1 : List α) (v : α) (m2 : List α)
    (h : l1 ++ u :: l2 = m1 ++ v :: m2) :
    (l1 = m1 ∧ u = v ∧ l2 = m2)
    ∨ (∃ mid, m1 = l1 ++ u :: mid ∧ l2 = mid ++ v :: m2)
    ∨ (∃ mid, l1 = m1 ++ v :: mid ∧ m2 = mid ++ u :: l2) := by
  induction l1 generalizing m1 with
  | nil =>
    rcases m1 with _ | ⟨b, m1'⟩
    · simp only [List.nil_append, List.cons.injEq] at h
      exact Or.inl ⟨rfl, h.1, h.2⟩
    · simp only [List.nil_append, List.cons_append, List.cons.injEq] at h
      obtain ⟨rfl, hl2⟩ := h
      exact Or.inr (Or.inl ⟨m1', by simp, hl2⟩)
  | cons a l1' ih =>
    rcases m1 with _ | ⟨b, m1'⟩
    · simp only [List.cons_append, List.nil_append, List.cons.injEq] at h
      obtain ⟨rfl, hm2⟩ := h
      exact Or.inr (Or.inr ⟨l1', by simp, hm2.symm⟩)
    · simp only [List.cons_append, List.cons.injEq] at h
      obtain ⟨rfl, h'⟩ := h
      rcases ih m1' h' with ⟨rfl, huv, hrest⟩ | ⟨mid, hm, hl⟩ | ⟨mid, hl, hm⟩
      · exact Or.inl ⟨rfl, huv, hrest⟩
      · exact Or.inr (Or.inl ⟨mid, by rw [List.cons_append, hm], hl⟩)
      · exact Or.inr (Or.inr ⟨mid, by rw [List.cons_append, hl], hm⟩)

theorem upperOf_spec (t : List (ℚ × ℕ)) (L : ℚ) :
    (∃ l1 l2, t = l1 ++ upperOf t L :: l2 ∧ (∀ x ∈ l1, x.1 ≤ L) ∧ L < (upperOf t L).1)
    ∨ (upperOf t L = (1, 255) ∧ ∀ x ∈ t, x.1 ≤ L) := by
  unfold upperOf
  rcases h : t.find? (fun p => decide (L < p.1)) with _ | u <;> rw [h]
  · right
    refine ⟨rfl, fun x hx => ?_⟩
    have := List.find?_eq_none.mp h x hx
    simpa using this
  · left
    obtain ⟨l1, l2, hl, hfail, hpa⟩ := find?_decomp h
    simp only [Option.getD_some]
    refine ⟨l1, l2, hl, fun x hx => ?_, by simpa using hpa⟩
    have := hfail x hx
    simp only [decide_eq_false_iff_not, not_lt] at this
    exact this

theorem lowerOf_spec (t : List (ℚ × ℕ)) (L : ℚ) :
    (∃ m1 m2, t = m1 ++ lowerOf t L :: m2 ∧ (∀ x ∈ m2, L ≤ x.1) ∧ (lowerOf t L).1 < L)
    ∨ (lowerOf t L = (0, 0) ∧ ∀ x ∈ t, L ≤ x.1) := by
  unfold lowerOf
  rcases h : t.reverse.find? (fun p => decide (p.1 < L)) with _ | v <;> rw [h]
  · right
    refine ⟨rfl, fun x hx => ?_⟩
    have := List.find?_eq_none.mp h x (List.mem_reverse.mpr hx)
    simpa using this
  · left
    obtain ⟨r1, r2, hrl, hfail, hpa⟩ := find?_decomp h
    simp only [Option.getD_some]
    have ht : t = r2.reverse ++ v :: r1.reverse := by
      have : t = (r1 ++ v :: r2).reverse := by rw [← hrl, List.reverse_reverse]
      simpa [List.reverse_append] using this
    refine ⟨r2.reverse, r1.reverse, ht, fun x hx => ?_, by simpa using hpa⟩
    have := hfail x (List.mem_reverse.mp hx)
    simp only [decide_eq_false_iff_not, not_lt] at this
    exact this

theorem pairwise_rel_of_decomp {α : Type} {R : α → α → Prop} {t l1 l2 : List α} {u v : α}
    (hp : t.Pairwise R) (h : t = l1 ++ u :: l2) (hv : v ∈ l2) : R u v := by
  subst h
  have h2 := (List.pairwise_append.mp hp).2.1
  exact (List.pairwise_cons.mp h2).1 v hv

theorem lowerOf_le (t : List (ℚ × ℕ)) {L : ℚ} (h0 : 0 ≤ L) : (lowerOf t L).1 ≤ L := by
  rcases lowerOf_spec t L with ⟨m1, m2, hm, hm2, hvL⟩ | ⟨hv, -⟩
  · exact le_of_lt hvL
  · rw [hv]
    exact h0

theorem le_upperOf (t : List (ℚ × ℕ)) {L : ℚ} (h1 : L ≤ 1) : L ≤ (upperOf t L).1 := by
  rcases upperOf_spec t L with ⟨l1, l2, hl, hl1, huL⟩ | ⟨hu, -⟩
  · exact le_of_lt huL
  · rw [hu]
    exact h1

theorem lower_speed_le_upper_speed (t : List (ℚ × ℕ)) (L : ℚ)
    (hload : t.Pairwise (fun a b => a.1 ≤ b.1))
    (hspeed : t.Pairwise (fun a b => a.2 ≤ b.2))
    (h255 : ∀ x ∈ t, x.2 ≤ 255) :
    (lowerOf t L).2 ≤ (upperOf t L).2 := by
  rcases lowerOf_spec t L with ⟨m1, m2, hm, hm2, hvL⟩ | ⟨hv, -⟩
  · rcases upperOf_spec t L with ⟨l1, l2, hl, hl1, huL⟩ | ⟨hu, -⟩
    · rcases two_decomps l1 (upperOf t L) l2 m1 (lowerOf t L) m2 (hl.symm.trans hm) with
        ⟨-, huv, -⟩ | ⟨mid, hm1, hl2⟩ | ⟨mid, hl1', hm2'⟩
      · exfalso
        rw [← huv] at hvL
        exact absurd (lt_trans hvL huL) (lt_irrefl _)
      · exfalso
        have hmem : lowerOf t L ∈ l2 := hl2 ▸ List.mem_append_right mid (List.mem_cons_self _ _)
        have := pairwise_rel_of_decomp hload hl hmem
        exact absurd (lt_of_lt_of_le huL this) (not_lt.mpr (le_of_lt hvL))
      · have hmem : upperOf t L ∈ m2 := hm2' ▸ List.mem_append_right mid (List.mem_cons_self _ _)
        exact pairwise_rel_of_decomp (R := fun a b => a.2 ≤ b.2) hspeed hm hmem
    · rw [hu]
      have hmem : lowerOf t L ∈ t := by
        have hx : lowerOf t L ∈ m1 ++ lowerOf t L :: m2 :=
          List.mem_append_right m1 (List.mem_cons_self _ _)
        rwa [← hm] at hx
      exact h255 _ hmem
  · rw [hv]
    exact Nat.zero_le _

theorem upper_speed_le_lower_speed_crossing (t : List (ℚ × ℕ)) {L1 L2 : ℚ}
    (hspeed : t.Pairwise (fun a b => a.2 ≤ b.2))
    {p : ℚ × ℕ} (hp : p ∈ t) (hp1 : L1 < p.1) (hp2 : p.1 < L2) :
    (upperOf t L1).2 ≤ (lowerOf t L2).2 := by
  rcases upperOf_spec t L1 with ⟨l1, l2, hl, hl1, -⟩ | ⟨-, hallu⟩
  · rcases lowerOf_spec t L2 with ⟨m1, m2, hm, hm2, -⟩ | ⟨-, halll⟩
    · rcases two_decomps l1 (upperOf t L1) l2 m1 (lowerOf t L2) m2 (hl.symm.trans hm) with
        ⟨-, huv, -⟩ | ⟨mid, hm1, hl2⟩ | ⟨mid, hl1', hm2'⟩
      · exact le_of_eq (congrArg Prod.snd huv)
      · have hmem : lowerOf t L2 ∈ l2 := hl2 ▸ List.mem_append_right mid (List.mem_cons_self _ _)
        exact pairwise_rel_of_decomp (R := fun a b => a.2 ≤ b.2) hspeed hl hmem
      · exfalso
        rw [hm] at hp
        rcases List.mem_append.mp hp with hpm1 | hpvm2
        · have hpl1 : p ∈ l1 := hl1' ▸ List.mem_append_left _ hpm1
          exact absurd hp1 (not_lt.mpr (hl1 p hpl1))
        · rcases List.mem_cons.mp hpvm2 with heq | hpm2
          · have hpl1 : lowerOf t L2 ∈ l1 :=
              hl1' ▸ List.mem_append_right _ (List.mem_cons_self _ _)
            rw [heq] at hp1
            exact absurd hp1 (not_lt.mpr (hl1 _ hpl1))
          · exact absurd hp2 (not_lt.mpr (hm2 p hpm2))
    · exact absurd hp2 (not_lt.mpr (halll p hp))
  · exact absurd hp1 (not_lt.mpr (hallu p hp))

theorem interpValue_bounds (t : List (ℚ × ℕ)) (L : ℚ)
    (hl : (lowerOf t L).1 ≤ L) (hu : L ≤ (upperOf t L).1)
    (hlt : (lowerOf t L).1 < (upperOf t L).1)
    (hs : (lowerOf t L).2 ≤ (upperOf t L).2) :
    ((lowerOf t L).2 : ℚ) ≤ interpValue t L ∧ interpValue t L ≤ ((upperOf t L).2 : ℚ) := by
  unfold interpValue
  have hd : 0 < (upperOf t L).1 - (lowerOf t L).1 := sub_pos.mpr hlt
  have hpct0 : 0 ≤ (L - (lowerOf t L).1) / ((upperOf t L).1 - (lowerOf t L).1) :=
    div_nonneg (sub_nonneg.mpr hl) (le_of_lt hd)
  have hpct1 : (L - (lowerOf t L).1) / ((upperOf t L).1 - (lowerOf t L).1) ≤ 1 :=
    (div_le_one hd).mpr (by linarith)
  have hsq : ((lowerOf t L).2 : ℚ) ≤ ((upperOf t L).2 : ℚ) := by exact_mod_cast hs
  constructor <;> nlinarith [mul_nonneg hpct0 (sub_nonneg.mpr hsq),
    mul_nonneg (sub_nonneg.mpr hpct1) (sub_nonneg.mpr hsq)]

theorem interpValue_mono_of_same_bracket (t : List (ℚ × ℕ)) {L1 L2 : ℚ}
    (hL : L1 ≤ L2)
    (hu : upperOf t L1 = upperOf t L2) (hv : lowerOf t L1 = lowerOf t L2)
    (hlt : (lowerOf t L1).1 < (upperOf t L1).1)
    (hs : (lowerOf t L1).2 ≤ (upperOf t L1).2) :
    interpValue t L1 ≤ interpValue t L2 := by
  unfold interpValue
  rw [← hu, ← hv]
  have hd : 0 < (upperOf t L1).1 - (lowerOf t L1).1 := sub_pos.mpr hlt
  have hpctle : (L1 - (lowerOf t L1).1) / ((upperOf t L1).1 - (lowerOf t L1).1)
      ≤ (L2 - (lowerOf t L1).1) / ((upperOf t L1).1 - (lowerOf t L1).1) :=
    (div_le_div_iff_of_pos_right hd).mpr (by linarith)
  have hsq : ((lowerOf t L1).2 : ℚ) ≤ ((upperOf t L1).2 : ℚ) := by exact_mod_cast hs
  nlinarith [mul_le_mul_of_nonneg_left hpctle (sub_nonneg.mpr hsq)]

theorem rustF64AsU8_mono {x y : ℚ} (h : x ≤ y) : rustF64AsU8 x ≤ rustF64AsU8 y := by
  unfold rustF64AsU8
  split
  · exact Nat.zero_le _
  · split
    · exfalso
      rename_i hx hy
      exact hx (lt_of_le_of_lt h hy)
    · exact min_le_min (Int.toNat_le_toNat (Int.floor_le_floor h)) le_rfl

theorem bracket_eq_of_no_breakpoint_between (t : List (ℚ × ℕ)) {L1 L2 : ℚ}
    (hnone : ∀ x ∈ t, ¬(L1 < x.1 ∧ x.1 < L2)) (hL : L1 ≤ L2)
    (hb1 : ∀ x ∈ t, x.1 ≠ L1) (hb2 : ∀ x ∈ t, x.1 ≠ L2) :
    upperOf t L1 = upperOf t L2 ∧ lowerOf t L1 = lowerOf t L2 := by
  constructor
  · have hcong : t.find? (fun p => decide (L1 < p.1)) = t.find? (fun p => decide (L2 < p.1)) := by
      refine find?_congr fun x hx => ?_
      by_cases hc : L2 < x.1
      · have h1 : L1 < x.1 := lt_of_le_of_lt hL hc
        simp [hc, h1]
      · have hxle : x.1 ≤ L2 := not_lt.mp hc
        have hxlt : x.1 < L2 := lt_of_le_of_ne hxle (hb2 x hx)
        have h1 : ¬(L1 < x.1) := fun hgt => hnone x hx ⟨hgt, hxlt⟩
        simp [hc, h1]
    unfold upperOf
    rw [hcong]
  · have hcong : t.reverse.find? (fun p => decide (p.1 < L1))
        = t.reverse.find? (fun p => decide (p.1 < L2)) := by
      refine find?_congr fun x hx => ?_
      have hx' : x ∈ t := List.mem_reverse.mp hx
      by_cases hc : x.1 < L1
      · have h2 : x.1 < L2 := lt_of_lt_of_le hc hL
        simp [hc, h2]
      · have hge : L1 ≤ x.1 := not_lt.mp hc
        have hgt : L1 < x.1 := lt_of_le_of_ne hge (Ne.symm (hb1 x hx'))
        have h2 : ¬(x.1 < L2) := fun hlt => hnone x hx' ⟨hgt, hlt⟩
        simp [hc, h2]
    unfold lowerOf
    rw [hcong]

/-- Claim C3 counterexample: the curve [(0,0), (1/2,100), (1,100)] has loads in [0,1]
and non-decreasing speeds, yet lookup(49/100) = 98 while lookup(1/2) = 50: a query
exactly equal to a breakpoint load is bracketed by that breakpoint's neighbours (both
searches are strict), skipping the breakpoint itself, so the speed drops there. -/
theorem lookup_speed_not_monotone :
    (FanSpeedTable.new [((0:ℚ), 0), (1/2, 100), (1, 100)]).table.Pairwise
        (fun a b => a.1 ≤ b.1)
    ∧ (FanSpeedTable.new [((0:ℚ), 0), (1/2, 100), (1, 100)]).table.Pairwise
        (fun a b => a.2 ≤ b.2)
    ∧ (∀ x ∈ (FanSpeedTable.new [((0:ℚ), 0), (1/2, 100), (1, 100)]).table,
        0 ≤ x.1 ∧ x.1 ≤ 1)
    ∧ ((49:ℚ)/100) ≤ 1/2
    ∧ (FanSpeedTable.new [((0:ℚ), 0), (1/2, 100), (1, 100)]).lookup_speed (49/100) = 98
    ∧ (FanSpeedTable.new [((0:ℚ), 0), (1/2, 100), (1, 100)]).lookup_speed (1/2) = 50 := by
  refine ⟨?_, ?_, ?_, ?_, ?_, ?_⟩ <;> with_unfolding_all decide

/-- Claim C3 (amended): for every calibration curve with loads sorted ascending in
[0,1] and speeds non-decreasing along the table, the lookup is monotonically
non-decreasing between any two loads in [0,1] *neither of which equals a breakpoint
load* (at a breakpoint load itself the interpolation skips the breakpoint — see the
counterexample). -/
theorem lookup_speed_monotone (tbl : FanSpeedTable)
    (hload : tbl.table.Pairwise (fun a b => a.1 ≤ b.1))
    (hspeed : tbl.table.Pairwise (fun a b => a.2 ≤ b.2))
    (h255 : ∀ x ∈ tbl.table, x.2 ≤ 255)
    {L1 L2 : ℚ} (h01 : 0 ≤ L1) (h12 : L1 ≤ L2) (h21 : L2 ≤ 1)
    (hb1 : ∀ x ∈ tbl.table, x.1 ≠ L1) (hb2 : ∀ x ∈ tbl.table, x.1 ≠ L2) :
    tbl.lookup_speed L1 ≤ tbl.lookup_speed L2 := by
  have h02 : 0 ≤ L2 := le_trans h01 h12
  have h11 : L1 ≤ 1 := le_trans h12 h21
  unfold FanSpeedTable.lookup_speed
  rw [rustClamp01_of_mem h01 h11, rustClamp01_of_mem h02 h21]
  apply rustF64AsU8_mono
  have hs1 := lower_speed_le_upper_speed tbl.table L1 hload hspeed h255
  have hs2 := lower_speed_le_upper_speed tbl.table L2 hload hspeed h255
  have hbd1 := interpValue_bounds tbl.table L1 (lowerOf_le tbl.table h01)
    (le_upperOf tbl.table h11) (lowerOf_lt_upperOf tbl.table h01 h11) hs1
  have hbd2 := interpValue_bounds tbl.table L2 (lowerOf_le tbl.table h02)
    (le_upperOf tbl.table h21) (lowerOf_lt_upperOf tbl.table h02 h21) hs2
  by_cases hwit : ∃ p ∈ tbl.table, L1 < p.1 ∧ p.1 < L2
  · obtain ⟨p, hp, hp1, hp2⟩ := hwit
    have hcross := upper_speed_le_lower_speed_crossing tbl.table hspeed hp hp1 hp2
    calc interpValue tbl.table L1 ≤ ((upperOf tbl.table L1).2 : ℚ) := hbd1.2
      _ ≤ ((lowerOf tbl.table L2).2 : ℚ) := by exact_mod_cast hcross
      _ ≤ interpValue tbl.table L2 := hbd2.1
  · push_neg at hwit
    have hnone : ∀ x ∈ tbl.table, ¬(L1 < x.1 ∧ x.1 < L2) :=
      fun x hx hand => absurd hand.2 (not_lt.mpr (hwit x hx hand.1))
    obtain ⟨hu, hv⟩ := bracket_eq_of_no_breakpoint_between tbl.table hnone h12 hb1 hb2
    exact interpValue_mono_of_same_bracket tbl.table h12 hu hv
      (lowerOf_lt_upperOf tbl.table h01 h11) hs1

theorem lookup_speed_monotone_witness :
    ((FanSpeedTable.new [((0:ℚ), 0), (1, 255)]).table.Pairwise (fun a b => a.1 ≤ b.1)
      ∧ (FanSpeedTable.new [((0:ℚ), 0), (1, 255)]).table.Pairwise (fun a b => a.2 ≤ b.2)
      ∧ (∀ x ∈ (FanSpeedTable.new [((0:ℚ), 0), (1, 255)]).table, x.2 ≤ 255)
      ∧ (0:ℚ) ≤ 1/4 ∧ (1/4:ℚ) ≤ 3/4 ∧ (3/4:ℚ) ≤ 1
      ∧ (∀ x ∈ (FanSpeedTable.new [((0:ℚ), 0), (1, 255)]).table, x.1 ≠ 1/4)
      ∧ (∀ x ∈ (FanSpeedTable.new [((0:ℚ), 0), (1, 255)]).table, x.1 ≠ 3/4))
    ∧ (FanSpeedTable.new [((0:ℚ), 0), (1, 255)]).lookup_speed (1/4)
        ≤ (FanSpeedTable.new [((0:ℚ), 0), (1, 255)]).lookup_speed (3/4) :=
  ⟨⟨by with_unfolding_all decide, by with_unfolding_all decide,
    by with_unfolding_all decide, by norm_num, by norm_num, by norm_num,
    by with_unfolding_all decide, by with_unfolding_all decide⟩,
   lookup_speed_monotone (FanSpeedTable.new [((0:ℚ), 0), (1, 255)])
     (by with_unfolding_all decide) (by with_unfolding_all decide)
     (by with_unfolding_all decide) (by norm_num) (by norm_num) (by norm_num)
     (by with_unfolding_all decide) (by with_unfolding_all decide)⟩

end FanController
